import Mathlib

/-!
Shallow embedding of `src/imr/src/descriptor_bind_helper.cpp` and proofs
about its descriptor-binding helper.

Vulkan handles (`VkDescriptorSet`, `VkImageView`, pipeline layouts, …) are
modelled as natural numbers, with `0` playing the role of the null handle
(the source `calloc`s the `sets` array, so an unallocated slot is `0`).
Device-level calls that only produce side effects (`vkCreateImageView`,
`vkUpdateDescriptorSets`, `vkCmdBindDescriptorSets`, the cleanup lambdas)
are recorded in explicit logs inside the `Impl` state, so that theorems can
talk about which views were created, which slots were written and which
descriptor sets were bound, in order.
-/

namespace Imr

/-- Vulkan descriptor types appearing in the source; `other` stands for any
further enum value. -/
inductive VkDescriptorType where
  | storageImage
  | combinedImageSampler
  | uniformBuffer
  | other (n : Nat)
deriving DecidableEq, Repr

/-- One reflected binding descriptor `{descriptorType, descriptorCount}`. -/
structure VkDescriptorSetLayoutBinding where
  descriptorType : VkDescriptorType
  descriptorCount : Nat
deriving DecidableEq, Repr

/-- `ReflectedLayout.set_bindings`: per set index, the ordered list of
binding descriptors (the map iterated by `Impl::Impl`). -/
structure ReflectedLayout where
  set_bindings : List (Nat × List VkDescriptorSetLayoutBinding)
deriving DecidableEq, Repr

/-- `PipelineLayout`: the pipeline layout handle and the per-set layout
handles (`set_layouts`). -/
structure PipelineLayout where
  pipeline_layout : Nat
  set_layouts : List Nat
deriving DecidableEq, Repr

/-- `VkImageType`: 1D/2D/3D, plus `other` for any further enum value (the
`default:` case of `image_type_to_view_type`). -/
inductive VkImageType where
  | d1
  | d2
  | d3
  | other (n : Nat)
deriving DecidableEq, Repr

/-- `VkImageViewType`: the view types used by the source. -/
inductive VkImageViewType where
  | d1
  | d2
  | d3
  | d2Array
deriving DecidableEq, Repr

/-- `VkImageLayout` values used by the source. -/
inductive VkImageLayout where
  | general
  | shaderReadOnlyOptimal
deriving DecidableEq, Repr

/-- `VkImageSubresourceRange`, all fields as naturals. -/
structure VkImageSubresourceRange where
  aspectMask : Nat
  baseMipLevel : Nat
  levelCount : Nat
  baseArrayLayer : Nat
  layerCount : Nat
deriving DecidableEq, Repr

def VK_IMAGE_ASPECT_COLOR_BIT : Nat := 1

/-- The slice of `imr::Image` the helper reads: handle, native type,
format, layer count and the whole-image subresource range. -/
structure Image where
  handle : Nat
  type : VkImageType
  format : Nat
  layerCount : Nat
  whole_image_subresource_range : VkImageSubresourceRange
deriving DecidableEq, Repr

/-- The slice of `imr::Buffer` the helper reads. -/
structure Buffer where
  handle : Nat
deriving DecidableEq, Repr

/-! ### Histogram computed by `Impl::Impl` (lines 22-32) -/

/-- `access_map(key) += c`: bump one key of the histogram, defaulting a
missing key to `0` (the `contains`/`operator[]` dance in the source). -/
def bumpCount (m : VkDescriptorType → Nat) (t : VkDescriptorType) (c : Nat) :
    VkDescriptorType → Nat :=
  fun u => if u = t then m u + c else m u

/-- The `descriptor_counts` histogram: fold over every set's binding list,
adding each binding's `descriptorCount` to its `descriptorType`'s bucket. -/
def descriptor_counts (sb : List (Nat × List VkDescriptorSetLayoutBinding)) :
    VkDescriptorType → Nat :=
  sb.foldl
    (fun m p => p.2.foldl (fun m2 b => bumpCount m2 b.descriptorType b.descriptorCount) m)
    (fun _ => 0)

/-- All binding descriptors of a reflected layout, sets flattened in order. -/
def allBindings (sb : List (Nat × List VkDescriptorSetLayoutBinding)) :
    List VkDescriptorSetLayoutBinding :=
  (sb.map Prod.snd).flatten

/-- Spec-side formula: the sum of `descriptorCount` over every binding
descriptor of kind `t` in a flat list of bindings. -/
def histogramSpec (l : List VkDescriptorSetLayoutBinding) (t : VkDescriptorType) : Nat :=
  (l.map (fun b => if b.descriptorType = t then b.descriptorCount else 0)).sum

/-! ### The helper state -/

/-- Payload of a `VkWriteDescriptorSet` image write. -/
structure WriteImageInfo where
  sampler : Nat
  imageView : Nat
  imageLayout : VkImageLayout
deriving DecidableEq, Repr

/-- Payload of a `VkWriteDescriptorSet` buffer write. -/
structure WriteBufferInfo where
  buffer : Nat
  offset : Nat
  range : Nat
deriving DecidableEq, Repr

/-- Either image info or buffer info, as carried by a descriptor write. -/
inductive WriteInfo where
  | image (info : WriteImageInfo)
  | buffer (info : WriteBufferInfo)
deriving DecidableEq, Repr

/-- One `vkUpdateDescriptorSets` slot write issued by the helper. -/
structure WriteDescriptorSet where
  dstSet : Nat
  dstBinding : Nat
  descriptorType : VkDescriptorType
  info : WriteInfo
deriving DecidableEq, Repr

/-- One `vkCreateImageView` call issued by the helper, with the handle of
the view it produced. -/
structure ViewCreateInfo where
  image : Nat
  viewType : VkImageViewType
  format : Nat
  subresourceRange : VkImageSubresourceRange
  viewHandle : Nat
deriving DecidableEq, Repr

/-- One `vkCmdBindDescriptorSets` call issued by `commit`/`commit_frame`. -/
structure BindCmd where
  bind_point : Nat
  layoutHandle : Nat
  firstSet : Nat
  dset : Nat
deriving DecidableEq, Repr

/-- `DescriptorBindHelper::Impl`, with device-call logs.  `sets` is the
`calloc`ed array of descriptor-set handles (`0` = not yet allocated);
`allocLog` records, in order, the set index of every
`vkAllocateDescriptorSets` call; `cleanup` records, in order, the view
handle each queued cleanup lambda will destroy; `viewsCreated` and
`writes` log the create-view and update-descriptor calls.  Fresh non-null
handles come from the counters `nextHandle` and `nextView`. -/
structure Impl where
  bind_point : Nat
  pipeline_layout : Nat
  nsets : Nat
  sets : List Nat
  poolMaxSets : Nat
  nextHandle : Nat
  allocLog : List Nat
  cleanup : List Nat
  viewsCreated : List ViewCreateInfo
  nextView : Nat
  writes : List WriteDescriptorSet
  committed : Bool
deriving DecidableEq, Repr

/-- `Impl::Impl`: size `nsets` from the reflected layout, build the pool
(capacity `layout.set_layouts.size()` sets, sized by `descriptor_counts`),
`calloc` the `sets` array. -/
def mkImpl (layout : PipelineLayout) (reflected : ReflectedLayout) (bind_point : Nat) : Impl :=
  { bind_point := bind_point
    pipeline_layout := layout.pipeline_layout
    nsets := reflected.set_bindings.length
    sets := List.replicate reflected.set_bindings.length 0
    poolMaxSets := layout.set_layouts.length
    nextHandle := 1
    allocLog := []
    cleanup := []
    viewsCreated := []
    nextView := 1
    writes := []
    committed := false }

/-- Errors surfaced by the embedded operations.  `protocolViolation` models
a failing `assert(!committed)`; `runtimeError` models a thrown
`std::runtime_error`; `outOfBounds` models the undefined behaviour of
indexing the `sets` array past its length (the source has no check). -/
inductive Err where
  | protocolViolation
  | runtimeError (msg : String)
  | outOfBounds
deriving DecidableEq, Repr

/-- `Impl::get_or_create_set`: if `sets[set] == 0`, allocate a descriptor
set from the pool (modelled as handing out the fresh non-null handle
`nextHandle`) and store it; return the stored handle.  Reading past the end
of the array is the `none` branch. -/
def get_or_create_set (st : Impl) (set : Nat) : Option (Nat × Impl) :=
  match st.sets[set]? with
  | none => none
  | some cur =>
    if cur = 0 then
      some (st.nextHandle,
        { st with
          sets := st.sets.set set st.nextHandle
          nextHandle := st.nextHandle + 1
          allocLog := st.allocLog ++ [set] })
    else
      some (cur, st)

/-- `image_type_to_view_type`: 1D/2D/3D map to the view type of the same
dimensionality; anything else throws "Unknown image type". -/
def image_type_to_view_type : VkImageType → Except String VkImageViewType
  | .d1 => .ok .d1
  | .d2 => .ok .d2
  | .d3 => .ok .d3
  | .other _ => .error "Unknown image type"

/-- `vkCreateImageView` plus handle bookkeeping: log the call and hand out
the fresh view handle. -/
def createImageView (st : Impl) (image : Nat) (viewType : VkImageViewType)
    (format : Nat) (range : VkImageSubresourceRange) : Nat × Impl :=
  (st.nextView,
    { st with
      viewsCreated := st.viewsCreated ++ [⟨image, viewType, format, range, st.nextView⟩]
      nextView := st.nextView + 1 })

/-- The ternary
`image_view_type ? *image_view_type : image_type_to_view_type(image.type())`:
use the caller's view type if supplied, otherwise derive it from the
image's own dimensionality (which may throw). -/
def resolve_view_type (image_view_type : Option VkImageViewType) (image : Image) :
    Except String VkImageViewType :=
  match image_view_type with
  | some t => Except.ok t
  | none => image_type_to_view_type image.type

/-- `DescriptorBindHelper::set_storage_image`.  Asserts `!committed`;
resolves the view type (caller-supplied, else derived from the image's
dimensionality, which may throw); creates the view; writes the slot on the
lazily obtained set; registers the view's cleanup. -/
def set_storage_image (st : Impl) (set binding : Nat) (image : Image)
    (subresource : Option VkImageSubresourceRange)
    (image_view_type : Option VkImageViewType) : Except Err Unit × Impl :=
  if st.committed then (.error .protocolViolation, st)
  else
    match resolve_view_type image_view_type image with
    | .error msg => (.error (.runtimeError msg), st)
    | .ok final_image_view_type =>
      let subresource_range := subresource.getD image.whole_image_subresource_range
      let vc := createImageView st image.handle final_image_view_type image.format
        subresource_range
      match get_or_create_set vc.2 set with
      | none => (.error .outOfBounds, vc.2)
      | some ds =>
        let w : WriteDescriptorSet :=
          { dstSet := ds.1, dstBinding := binding,
            descriptorType := .storageImage,
            info := .image { sampler := 0, imageView := vc.1, imageLayout := .general } }
        let st2 := { ds.2 with writes := ds.2.writes ++ [w] }
        (.ok (), { st2 with cleanup := st2.cleanup ++ [vc.1] })

/-- `DescriptorBindHelper::set_combined_image_sampler`.  Asserts
`!committed`; builds a subresource range every field of which is
overwritten (color aspect, mip 0, one level, all layers); always creates a
`2D_ARRAY` view; writes the slot; registers cleanup. -/
def set_combined_image_sampler (st : Impl) (set binding : Nat) (image : Image)
    (sampler : Nat) : Except Err Unit × Impl :=
  if st.committed then (.error .protocolViolation, st)
  else
    let subresourceRange : VkImageSubresourceRange :=
      { aspectMask := VK_IMAGE_ASPECT_COLOR_BIT
        baseMipLevel := 0
        levelCount := 1
        baseArrayLayer := 0
        layerCount := image.layerCount }
    let vc := createImageView st image.handle .d2Array image.format subresourceRange
    match get_or_create_set vc.2 set with
    | none => (.error .outOfBounds, vc.2)
    | some ds =>
      let w : WriteDescriptorSet :=
        { dstSet := ds.1, dstBinding := binding,
          descriptorType := .combinedImageSampler,
          info := .image { sampler := sampler, imageView := vc.1,
                           imageLayout := .shaderReadOnlyOptimal } }
      let st2 := { ds.2 with writes := ds.2.writes ++ [w] }
      (.ok (), { st2 with cleanup := st2.cleanup ++ [vc.1] })

/-- `DescriptorBindHelper::set_uniform_buffer`.  Note: the source contains
no `assert(!committed)` here; the function writes the slot on the lazily
obtained set unconditionally. -/
def set_uniform_buffer (st : Impl) (set binding : Nat) (buffer : Buffer)
    (offset range : Nat) : Except Err Unit × Impl :=
  match get_or_create_set st set with
  | none => (.error .outOfBounds, st)
  | some ds =>
    let w : WriteDescriptorSet :=
      { dstSet := ds.1, dstBinding := binding,
        descriptorType := .uniformBuffer,
        info := .buffer { buffer := buffer.handle, offset := offset, range := range } }
    (.ok (), { ds.2 with writes := ds.2.writes ++ [w] })

/-- The publishing loop shared by `commit` and `commit_frame`: for each
`set` in `0..nsets`, if `sets[set]` is non-null, emit one
`vkCmdBindDescriptorSets(cmdbuf, bind_point, layout, set, 1, &sets[set])`. -/
def bindLoop (st : Impl) : List BindCmd :=
  (List.range st.nsets).filterMap (fun set =>
    if st.sets.getD set 0 ≠ 0 then
      some { bind_point := st.bind_point, layoutHandle := st.pipeline_layout,
             firstSet := set, dset := st.sets.getD set 0 }
    else none)

/-- `DescriptorBindHelper::commit`: asserts `!committed`, runs the
publishing loop, sets `committed`. -/
def commit (st : Impl) : Except Err (List BindCmd) × Impl :=
  if st.committed then (.error .protocolViolation, st)
  else (.ok (bindLoop st), { st with committed := true })

/-- `DescriptorBindHelper::commit_frame`: the same publishing loop, on a
`const` helper — no flag is read or written. -/
def commit_frame (st : Impl) : List BindCmd × Impl :=
  (bindLoop st, st)

/-- Events emitted by `Impl::~Impl`, in order. -/
inductive DtorEvent where
  | freeSets
  | destroyPool
  | destroyImageView (view : Nat)
deriving DecidableEq, Repr

/-- `Impl::~Impl`: `free(sets)`, destroy the pool, then run every cleanup
lambda in registration order. -/
def destroyImpl (st : Impl) : List DtorEvent :=
  [DtorEvent.freeSets, DtorEvent.destroyPool] ++ st.cleanup.map DtorEvent.destroyImageView

/-! ### Sequencing attachment calls -/

/-- One attachment call, for reasoning about call sequences. -/
inductive AttachCall where
  | storageImage (set binding : Nat) (image : Image)
      (subresource : Option VkImageSubresourceRange)
      (viewType : Option VkImageViewType)
  | combinedImageSampler (set binding : Nat) (image : Image) (sampler : Nat)
  | uniformBuffer (set binding : Nat) (buffer : Buffer) (offset range : Nat)
deriving DecidableEq, Repr

/-- The set index an attachment call targets. -/
def AttachCall.setIndex : AttachCall → Nat
  | .storageImage s _ _ _ _ => s
  | .combinedImageSampler s _ _ _ => s
  | .uniformBuffer s _ _ _ _ => s

/-- Dispatch one attachment call. -/
def doAttach (st : Impl) : AttachCall → Except Err Unit × Impl
  | .storageImage s b img sub vt => set_storage_image st s b img sub vt
  | .combinedImageSampler s b img smp => set_combined_image_sampler st s b img smp
  | .uniformBuffer s b buf off rng => set_uniform_buffer st s b buf off rng

/-- Run a sequence of attachment calls, keeping the state each call leaves
behind. -/
def runAttach (st : Impl) (cs : List AttachCall) : Impl :=
  cs.foldl (fun s c => (doAttach s c).2) st

/-- Run a sequence of `get_or_create_set` calls (a failed, out-of-bounds
call leaves the state unchanged). -/
def runCalls (st : Impl) (calls : List Nat) : Impl :=
  calls.foldl
    (fun s i =>
      match get_or_create_set s i with
      | some p => p.2
      | none => s) st

/-! ### Concrete example data (used by counterexamples and witnesses) -/

def exImage : Image := ⟨7, .d2, 44, 3, ⟨1, 0, 5, 0, 3⟩⟩

def exImage1D : Image := ⟨8, .d1, 44, 1, ⟨1, 0, 1, 0, 1⟩⟩

def exImageBad : Image := ⟨9, .other 4, 44, 1, ⟨1, 0, 1, 0, 1⟩⟩

def exBuffer : Buffer := ⟨9⟩

def exLayout : PipelineLayout := ⟨11, [21, 22]⟩

def exReflected : ReflectedLayout :=
  ⟨[(0, [⟨.storageImage, 1⟩]), (1, [⟨.uniformBuffer, 1⟩])]⟩

def exFresh : Impl := mkImpl exLayout exReflected 0

def exCommitted : Impl := (commit exFresh).2

/-! ### Histogram lemmas -/

theorem bumpCount_apply (m : VkDescriptorType → Nat) (t u : VkDescriptorType) (c : Nat) :
    bumpCount m t c u = if u = t then m u + c else m u := rfl

theorem foldl_bindings_apply (l : List VkDescriptorSetLayoutBinding)
    (m : VkDescriptorType → Nat) (t : VkDescriptorType) :
    (l.foldl (fun m2 b => bumpCount m2 b.descriptorType b.descriptorCount) m) t
      = m t + histogramSpec l t := by
  induction l generalizing m with
  | nil => simp [histogramSpec]
  | cons b bs ih =>
    rw [List.foldl_cons, ih, bumpCount_apply]
    simp only [histogramSpec, List.map_cons, List.sum_cons]
    by_cases h : b.descriptorType = t
    · subst h
      simp only [if_pos rfl, if_true]
      omega
    · rw [if_neg h, if_neg (fun hh : t = b.descriptorType => h hh.symm)]
      omega

theorem histogramSpec_append (l1 l2 : List VkDescriptorSetLayoutBinding)
    (t : VkDescriptorType) :
    histogramSpec (l1 ++ l2) t = histogramSpec l1 t + histogramSpec l2 t := by
  simp [histogramSpec]

theorem foldl_sets_apply (sb : List (Nat × List VkDescriptorSetLayoutBinding))
    (m : VkDescriptorType → Nat) (t : VkDescriptorType) :
    (sb.foldl
        (fun m p => p.2.foldl (fun m2 b => bumpCount m2 b.descriptorType b.descriptorCount) m)
        m) t
      = m t + histogramSpec (allBindings sb) t := by
  induction sb generalizing m with
  | nil => simp [allBindings, histogramSpec]
  | cons p ps ih =>
    rw [List.foldl_cons, ih, foldl_bindings_apply]
    have : allBindings (p :: ps) = p.2 ++ allBindings ps := by
      simp [allBindings]
    rw [this, histogramSpec_append]
    omega

theorem descriptor_counts_eq_histogramSpec
    (sb : List (Nat × List VkDescriptorSetLayoutBinding)) (t : VkDescriptorType) :
    descriptor_counts sb t = histogramSpec (allBindings sb) t := by
  unfold descriptor_counts
  rw [foldl_sets_apply]
  omega

theorem histogramSpec_perm {l1 l2 : List VkDescriptorSetLayoutBinding}
    (h : l1.Perm l2) (t : VkDescriptorType) :
    histogramSpec l1 t = histogramSpec l2 t := by
  unfold histogramSpec
  exact (h.map _).sum_eq

/-- C4: the resource-kind histogram computed at construction maps each
resource kind to the sum of `count` over every binding descriptor of that
kind across every set, and two layouts whose flattened binding descriptors
are permutations of each other (sets and bindings enumerated in any order)
produce the same histogram. -/
theorem C4_histogram_is_order_independent_sum
    (sb : List (Nat × List VkDescriptorSetLayoutBinding)) (t : VkDescriptorType) :
    descriptor_counts sb t = histogramSpec (allBindings sb) t ∧
    ∀ sb2 : List (Nat × List VkDescriptorSetLayoutBinding),
      (allBindings sb).Perm (allBindings sb2) →
      descriptor_counts sb t = descriptor_counts sb2 t := by
  refine ⟨descriptor_counts_eq_histogramSpec sb t, fun sb2 hperm => ?_⟩
  rw [descriptor_counts_eq_histogramSpec, descriptor_counts_eq_histogramSpec]
  exact histogramSpec_perm hperm t

/-- Witness for C4 at a concrete layout: the histogram of `exReflected`
agrees with the spec-side sum, and reversing the set list preserves it. -/
theorem C4_histogram_witness :
    descriptor_counts exReflected.set_bindings VkDescriptorType.storageImage
        = histogramSpec (allBindings exReflected.set_bindings) VkDescriptorType.storageImage ∧
      descriptor_counts exReflected.set_bindings VkDescriptorType.storageImage
        = descriptor_counts exReflected.set_bindings.reverse VkDescriptorType.storageImage :=
  ⟨(C4_histogram_is_order_independent_sum exReflected.set_bindings .storageImage).1,
   (C4_histogram_is_order_independent_sum exReflected.set_bindings .storageImage).2
     exReflected.set_bindings.reverse (by decide)⟩

/-! ### `get_or_create_set` lemmas -/

theorem gocs_of_zero {st : Impl} {i : Nat} (h : st.sets[i]? = some 0) :
    get_or_create_set st i = some (st.nextHandle,
      { st with
        sets := st.sets.set i st.nextHandle
        nextHandle := st.nextHandle + 1
        allocLog := st.allocLog ++ [i] }) := by
  unfold get_or_create_set
  rw [h]
  rfl

theorem gocs_of_nonzero {st : Impl} {i c : Nat} (h : st.sets[i]? = some c) (hc : c ≠ 0) :
    get_or_create_set st i = some (c, st) := by
  unfold get_or_create_set
  rw [h]
  simp [hc]

theorem gocs_isSome_iff (st : Impl) (i : Nat) :
    (get_or_create_set st i).isSome = true ↔ i < st.sets.length := by
  constructor
  · intro h
    unfold get_or_create_set at h
    cases hg : st.sets[i]? with
    | none => rw [hg] at h; simp at h
    | some c => exact (List.getElem?_eq_some_iff.mp hg).1
  · intro h
    have hg : st.sets[i]? = some st.sets[i] := List.getElem?_eq_getElem h
    by_cases hc : st.sets[i] = 0
    · rw [hc] at hg
      rw [gocs_of_zero hg]
      rfl
    · rw [gocs_of_nonzero hg hc]
      rfl

theorem gocs_fields {st : Impl} {i : Nat} {p : Nat × Impl}
    (h : get_or_create_set st i = some p) :
    p.2.cleanup = st.cleanup ∧ p.2.viewsCreated = st.viewsCreated ∧
    p.2.nextView = st.nextView ∧ p.2.writes = st.writes ∧
    p.2.committed = st.committed ∧ p.2.nsets = st.nsets ∧
    p.2.bind_point = st.bind_point ∧ p.2.pipeline_layout = st.pipeline_layout ∧
    p.2.sets.length = st.sets.length ∧ st.nextHandle ≤ p.2.nextHandle := by
  cases hg : st.sets[i]? with
  | none =>
    unfold get_or_create_set at h
    rw [hg] at h
    cases h
  | some c =>
    by_cases hc : c = 0
    · subst hc
      rw [gocs_of_zero hg, Option.some_inj] at h
      rw [← h]
      simp [List.length_set]
    · rw [gocs_of_nonzero hg hc, Option.some_inj] at h
      rw [← h]
      simp

theorem gocs_idem (st : Impl) (h0 : 0 < st.nextHandle) (i : Nat)
    (hi : i < st.sets.length) :
    ∃ h st1, get_or_create_set st i = some (h, st1) ∧
      get_or_create_set st1 i = some (h, st1) := by
  have hne : st.nextHandle ≠ 0 := by omega
  have hg : st.sets[i]? = some st.sets[i] := List.getElem?_eq_getElem hi
  by_cases hc : st.sets[i] = 0
  · rw [hc] at hg
    refine ⟨st.nextHandle, _, gocs_of_zero hg, ?_⟩
    exact gocs_of_nonzero (List.getElem?_set_eq_of_lt st.nextHandle hi) hne
  · exact ⟨st.sets[i], st, gocs_of_nonzero hg hc, gocs_of_nonzero hg hc⟩

/-- The quantity `count of allocations at index i` plus `1 if slot i is
still unallocated`: invariant under `get_or_create_set`, because a slot is
only ever allocated when it is `0` and a fresh handle is non-null. -/
def allocCredit (st : Impl) (i : Nat) : Nat :=
  st.allocLog.count i + (if st.sets.getD i 0 = 0 then 1 else 0)

theorem gocs_allocCredit {st : Impl} {j : Nat} {p : Nat × Impl}
    (h0 : 0 < st.nextHandle) (h : get_or_create_set st j = some p) (i : Nat) :
    allocCredit p.2 i = allocCredit st i := by
  have hj : j < st.sets.length := by
    rw [← gocs_isSome_iff st j, h]
    rfl
  cases hg : st.sets[j]? with
  | none =>
    unfold get_or_create_set at h
    rw [hg] at h
    cases h
  | some c =>
    by_cases hc : c = 0
    · subst hc
      rw [gocs_of_zero hg, Option.some_inj] at h
      rw [← h]
      unfold allocCredit
      by_cases hij : i = j
      · subst hij
        simp only [List.count_append, List.count_singleton' i i, if_pos rfl]
        have hbefore : st.sets.getD i 0 = 0 := by
          rw [List.getD_eq_getElem?_getD, hg]
          rfl
        have hafter : (st.sets.set i st.nextHandle).getD i 0 = st.nextHandle := by
          rw [List.getD_eq_getElem?_getD, List.getElem?_set_eq_of_lt st.nextHandle hj]
          rfl
        rw [hbefore, hafter]
        simp only [if_pos rfl]
        have : ¬ st.nextHandle = 0 := by omega
        rw [if_neg this]
        omega
      · have hslot : (st.sets.set j st.nextHandle).getD i 0 = st.sets.getD i 0 := by
          rw [List.getD_eq_getElem?_getD, List.getD_eq_getElem?_getD,
            List.getElem?_set_ne (fun hh => hij hh.symm)]
        simp only [List.count_append, List.count_singleton' i j,
          if_neg (fun hh : j = i => hij hh.symm), hslot]
        omega
    · rw [gocs_of_nonzero hg hc, Option.some_inj] at h
      rw [← h]

theorem runCalls_invariants (st : Impl) (h0 : 0 < st.nextHandle) (calls : List Nat)
    (hb : ∀ j ∈ calls, j < st.sets.length) :
    0 < (runCalls st calls).nextHandle ∧
    (runCalls st calls).sets.length = st.sets.length ∧
    ∀ i, allocCredit (runCalls st calls) i = allocCredit st i := by
  induction calls generalizing st with
  | nil => exact ⟨h0, rfl, fun _ => rfl⟩
  | cons c cs ih =>
    have hc : c < st.sets.length := hb c (by simp)
    have hsome : (get_or_create_set st c).isSome = true := (gocs_isSome_iff st c).mpr hc
    obtain ⟨p, hp⟩ := Option.isSome_iff_exists.mp hsome
    have hrw : runCalls st (c :: cs) = runCalls p.2 cs := by
      unfold runCalls
      rw [List.foldl_cons, hp]
    have hf := gocs_fields hp
    have hlen : p.2.sets.length = st.sets.length := hf.2.2.2.2.2.2.2.2.1
    have h0p : 0 < p.2.nextHandle := lt_of_lt_of_le h0 hf.2.2.2.2.2.2.2.2.2
    have hbp : ∀ j ∈ cs, j < p.2.sets.length := by
      intro j hj
      rw [hlen]
      exact hb j (by simp [hj])
    obtain ⟨ih1, ih2, ih3⟩ := ih p.2 h0p hbp
    rw [hrw]
    refine ⟨ih1, by rw [ih2, hlen], fun i => ?_⟩
    rw [ih3 i, gocs_allocCredit h0 hp i]

/-- C5: `get_or_create_set` is idempotent per set index — a second call
with the same index returns the same handle and the same state — and over
any in-bounds call sequence at most one allocation is performed per index. -/
theorem C5_get_or_create_set_idempotent (st : Impl) (h0 : 0 < st.nextHandle)
    (i : Nat) (hi : i < st.sets.length) :
    (∃ h st1, get_or_create_set st i = some (h, st1) ∧
        get_or_create_set st1 i = some (h, st1)) ∧
    (∀ calls : List Nat, (∀ j ∈ calls, j < st.sets.length) →
        ∀ j, (runCalls st calls).allocLog.count j ≤ st.allocLog.count j + 1) := by
  refine ⟨gocs_idem st h0 i hi, fun calls hb j => ?_⟩
  have hcred := (runCalls_invariants st h0 calls hb).2.2 j
  unfold allocCredit at hcred
  have h1 : (if (runCalls st calls).sets.getD j 0 = 0 then 1 else 0) ≤ 1 := by
    split <;> omega
  have h2 : (if st.sets.getD j 0 = 0 then 1 else 0) ≤ 1 := by
    split <;> omega
  omega

/-- Witness for C5: on a freshly constructed helper, calling
`get_or_create_set 0` twice returns the same table, and the call sequence
`[0, 0, 1]` allocates at most once at index `0`. -/
theorem C5_witness :
    (∃ h st1, get_or_create_set exFresh 0 = some (h, st1) ∧
        get_or_create_set st1 0 = some (h, st1)) ∧
    (runCalls exFresh [0, 0, 1]).allocLog.count 0 ≤ exFresh.allocLog.count 0 + 1 := by
  have hmain := C5_get_or_create_set_idempotent exFresh (by decide) 0 (by decide)
  exact ⟨hmain.1, hmain.2 [0, 0, 1] (by decide) 0⟩

/-- C10: the per-set table array is sized to the reflected set count at
construction, and a `get_or_create_set` lookup hits the in-bounds branch
precisely when the target set index is below that count; an attachment
call such as `set_uniform_buffer` succeeds precisely under the same
precondition. -/
theorem C10_set_index_precondition :
    (∀ layout reflected bp,
        (mkImpl layout reflected bp).sets.length = reflected.set_bindings.length ∧
        (mkImpl layout reflected bp).nsets = reflected.set_bindings.length) ∧
    (∀ st : Impl, st.sets.length = st.nsets →
        ∀ i, ((get_or_create_set st i).isSome = true ↔ i < st.nsets)) ∧
    (∀ st : Impl, st.sets.length = st.nsets →
        ∀ set binding buf off rng,
          ((set_uniform_buffer st set binding buf off rng).1 = Except.ok ()
            ↔ set < st.nsets)) := by
  refine ⟨fun layout reflected bp => ⟨by simp [mkImpl], rfl⟩,
    fun st hlen i => by rw [gocs_isSome_iff, hlen], fun st hlen set binding buf off rng => ?_⟩
  unfold set_uniform_buffer
  cases hg : get_or_create_set st set with
  | none =>
    have : ¬ set < st.nsets := by
      rw [← hlen, ← gocs_isSome_iff st set, hg]
      simp
    simp [this]
  | some p =>
    have : set < st.nsets := by
      rw [← hlen, ← gocs_isSome_iff st set, hg]
      rfl
    simp [this]

/-- Witness for C10: concrete instances of each conjunct on the example
helper over a two-set reflected layout. -/
theorem C10_witness :
    (mkImpl exLayout exReflected 0).sets.length = exReflected.set_bindings.length ∧
    ((get_or_create_set exFresh 2).isSome = true ↔ 2 < exFresh.nsets) ∧
    ((set_uniform_buffer exFresh 1 0 exBuffer 0 16).1 = Except.ok ()
      ↔ 1 < exFresh.nsets) := by
  refine ⟨(C10_set_index_precondition.1 exLayout exReflected 0).1, ?_, ?_⟩
  · exact C10_set_index_precondition.2.1 exFresh (by decide) 2
  · exact C10_set_index_precondition.2.2 exFresh (by decide) 1 0 exBuffer 0 16

/-! ### Attachment-operation equation lemmas -/

theorem set_storage_image_eq (st : Impl) (set binding : Nat) (img : Image)
    (sub : Option VkImageSubresourceRange) (ivt : Option VkImageViewType)
    (vt : VkImageViewType) (p : Nat × Impl)
    (hc : st.committed = false)
    (hvt : resolve_view_type ivt img = Except.ok vt)
    (hp : get_or_create_set
        (createImageView st img.handle vt img.format
          (sub.getD img.whole_image_subresource_range)).2 set = some p) :
    set_storage_image st set binding img sub ivt =
      (.ok (), { p.2 with
        writes := p.2.writes ++
          [{ dstSet := p.1, dstBinding := binding, descriptorType := .storageImage,
             info := .image { sampler := 0, imageView := st.nextView,
                              imageLayout := .general } }],
        cleanup := p.2.cleanup ++ [st.nextView] }) := by
  unfold set_storage_image
  rw [hc, hvt]
  simp only [Bool.false_eq_true, if_false, hp]
  rfl

theorem set_combined_image_sampler_eq (st : Impl) (set binding : Nat) (img : Image)
    (sampler : Nat) (p : Nat × Impl)
    (hc : st.committed = false)
    (hp : get_or_create_set
        (createImageView st img.handle .d2Array img.format
          { aspectMask := VK_IMAGE_ASPECT_COLOR_BIT, baseMipLevel := 0, levelCount := 1,
            baseArrayLayer := 0, layerCount := img.layerCount }).2 set = some p) :
    set_combined_image_sampler st set binding img sampler =
      (.ok (), { p.2 with
        writes := p.2.writes ++
          [{ dstSet := p.1, dstBinding := binding, descriptorType := .combinedImageSampler,
             info := .image { sampler := sampler, imageView := st.nextView,
                              imageLayout := .shaderReadOnlyOptimal } }],
        cleanup := p.2.cleanup ++ [st.nextView] }) := by
  unfold set_combined_image_sampler
  rw [hc]
  simp only [Bool.false_eq_true, if_false, hp]
  rfl

theorem set_uniform_buffer_eq (st : Impl) (set binding : Nat) (buf : Buffer)
    (off rng : Nat) (p : Nat × Impl)
    (hp : get_or_create_set st set = some p) :
    set_uniform_buffer st set binding buf off rng =
      (.ok (), { p.2 with
        writes := p.2.writes ++
          [{ dstSet := p.1, dstBinding := binding, descriptorType := .uniformBuffer,
             info := .buffer { buffer := buf.handle, offset := off, range := rng } }] }) := by
  unfold set_uniform_buffer
  rw [hp]

/-! ### C1: the committed assertion on attachment operations -/

/-- C1 counterexample: on an already-committed helper, `set_uniform_buffer`
is NOT rejected — it succeeds, writes a slot and allocates a table,
mutating the state. -/
theorem C1_counterexample :
    exCommitted.committed = true ∧
    (set_uniform_buffer exCommitted 0 0 exBuffer 0 16).1 = Except.ok () ∧
    (set_uniform_buffer exCommitted 0 0 exBuffer 0 16).2 ≠ exCommitted ∧
    (set_uniform_buffer exCommitted 0 0 exBuffer 0 16).2.writes.length
      = exCommitted.writes.length + 1 ∧
    (set_uniform_buffer exCommitted 0 0 exBuffer 0 16).2.allocLog.length
      = exCommitted.allocLog.length + 1 := by
  refine ⟨rfl, rfl, ?_, rfl, rfl⟩
  decide

/-- C1 (amended): `set_storage_image` and `set_combined_image_sampler`
assert the helper is not committed, and a call after `commit` is rejected
as a protocol violation mutating no state; `set_uniform_buffer` performs no
such check and never reports a protocol violation. -/
theorem C1_amended_assert_only_on_image_ops (st : Impl) (hc : st.committed = true)
    (set binding : Nat) (img : Image) (sub : Option VkImageSubresourceRange)
    (ivt : Option VkImageViewType) (sampler : Nat) (buf : Buffer) (off rng : Nat) :
    set_storage_image st set binding img sub ivt = (.error .protocolViolation, st) ∧
    set_combined_image_sampler st set binding img sampler
      = (.error .protocolViolation, st) ∧
    (set_uniform_buffer st set binding buf off rng).1
      ≠ Except.error Err.protocolViolation := by
  refine ⟨?_, ?_, ?_⟩
  · unfold set_storage_image
    rw [hc]
    rfl
  · unfold set_combined_image_sampler
    rw [hc]
    rfl
  · unfold set_uniform_buffer
    cases hg : get_or_create_set st set with
    | none => simp
    | some p => simp

/-- Witness for the amended C1 on the concrete committed helper. -/
theorem C1_amended_witness :
    exCommitted.committed = true ∧
    set_storage_image exCommitted 0 0 exImage none none
      = (Except.error Err.protocolViolation, exCommitted) ∧
    set_combined_image_sampler exCommitted 0 0 exImage 5
      = (Except.error Err.protocolViolation, exCommitted) := by
  have h := C1_amended_assert_only_on_image_ops exCommitted rfl 0 0 exImage none none 5
    exBuffer 0 16
  exact ⟨rfl, h.1, h.2.1⟩

/-! ### C8: default view-shape derivation in `set_storage_image` -/

/-- C8: when the caller supplies no explicit view type, `set_storage_image`
derives the view type from the image's own dimensionality (1D→1D, 2D→2D,
3D→3D); if the image's native dimensionality has no corresponding view
type, the call fails with the "Unknown image type" error and the state is
returned exactly unchanged — no view created, no table allocated, no slot
written. -/
theorem C8_default_view_shape (st : Impl) (hc : st.committed = false)
    (set binding : Nat) (hset : set < st.sets.length) (img : Image)
    (sub : Option VkImageSubresourceRange) :
    (∀ vt, image_type_to_view_type img.type = .ok vt →
        ∃ st1, set_storage_image st set binding img sub none = (.ok (), st1) ∧
          st1.viewsCreated = st.viewsCreated ++
            [{ image := img.handle, viewType := vt, format := img.format,
               subresourceRange := sub.getD img.whole_image_subresource_range,
               viewHandle := st.nextView }]) ∧
    (image_type_to_view_type .d1 = .ok .d1 ∧ image_type_to_view_type .d2 = .ok .d2 ∧
      image_type_to_view_type .d3 = .ok .d3) ∧
    (∀ n, img.type = VkImageType.other n →
        set_storage_image st set binding img sub none
          = (.error (.runtimeError "Unknown image type"), st)) := by
  refine ⟨fun vt hvt => ?_, ⟨rfl, rfl, rfl⟩, fun n hn => ?_⟩
  · have hset2 : set < (createImageView st img.handle vt img.format
        (sub.getD img.whole_image_subresource_range)).2.sets.length := hset
    obtain ⟨p, hp⟩ := Option.isSome_iff_exists.mp ((gocs_isSome_iff _ set).mpr hset2)
    exact ⟨_, set_storage_image_eq st set binding img sub none vt p hc hvt hp,
      (gocs_fields hp).2.1⟩
  · unfold set_storage_image
    rw [hc]
    have hres : resolve_view_type none img = image_type_to_view_type img.type := rfl
    rw [hres, hn]
    rfl

/-- Witness for C8: a 1D image gets a 1D view by default, and an image of
unknown dimensionality makes the call fail with no state change. -/
theorem C8_witness :
    (∃ st1, set_storage_image exFresh 0 0 exImage1D none none = (.ok (), st1) ∧
        st1.viewsCreated = exFresh.viewsCreated ++
          [{ image := exImage1D.handle, viewType := .d1, format := exImage1D.format,
             subresourceRange := exImage1D.whole_image_subresource_range,
             viewHandle := exFresh.nextView }]) ∧
    set_storage_image exFresh 0 0 exImageBad none none
      = (.error (.runtimeError "Unknown image type"), exFresh) := by
  have h1 := C8_default_view_shape exFresh rfl 0 0 (by decide) exImage1D none
  have h2 := C8_default_view_shape exFresh rfl 0 0 (by decide) exImageBad none
  exact ⟨h1.1 .d1 rfl, h2.2.2 4 rfl⟩

/-! ### C9: fixed view shape in `set_combined_image_sampler` -/

/-- C9: `set_combined_image_sampler` always creates its view with the fixed
shape — 2D-array view type, color aspect, base mip 0 with exactly one mip
level, base layer 0 with all of the image's array layers — for every image
whatsoever (no dependence on its dimensionality or mip count, and no
error path). -/
theorem C9_combined_sampler_fixed_shape (st : Impl) (hc : st.committed = false)
    (set binding : Nat) (hset : set < st.sets.length) (img : Image) (sampler : Nat) :
    ∃ st1, set_combined_image_sampler st set binding img sampler = (.ok (), st1) ∧
      st1.viewsCreated = st.viewsCreated ++
        [{ image := img.handle, viewType := VkImageViewType.d2Array, format := img.format,
           subresourceRange := { aspectMask := VK_IMAGE_ASPECT_COLOR_BIT, baseMipLevel := 0,
                                 levelCount := 1, baseArrayLayer := 0,
                                 layerCount := img.layerCount },
           viewHandle := st.nextView }] := by
  have hset2 : set < (createImageView st img.handle .d2Array img.format
      { aspectMask := VK_IMAGE_ASPECT_COLOR_BIT, baseMipLevel := 0, levelCount := 1,
        baseArrayLayer := 0, layerCount := img.layerCount }).2.sets.length := hset
  obtain ⟨p, hp⟩ := Option.isSome_iff_exists.mp ((gocs_isSome_iff _ set).mpr hset2)
  exact ⟨_, set_combined_image_sampler_eq st set binding img sampler p hc hp,
    (gocs_fields hp).2.1⟩

/-- Witness for C9: even a 1D image with several mip levels gets a 2D-array
view with one mip level and all its layers. -/
theorem C9_witness :
    ∃ st1, set_combined_image_sampler exFresh 0 0 exImage1D 5 = (.ok (), st1) ∧
      st1.viewsCreated = exFresh.viewsCreated ++
        [{ image := exImage1D.handle, viewType := VkImageViewType.d2Array,
           format := exImage1D.format,
           subresourceRange := { aspectMask := VK_IMAGE_ASPECT_COLOR_BIT, baseMipLevel := 0,
                                 levelCount := 1, baseArrayLayer := 0,
                                 layerCount := exImage1D.layerCount },
           viewHandle := exFresh.nextView }] :=
  C9_combined_sampler_fixed_shape exFresh rfl 0 0 (by decide) exImage1D 5

/-! ### Error-branch equation lemmas for the attachment operations -/

theorem set_storage_image_of_committed (st : Impl) (set binding : Nat) (img : Image)
    (sub : Option VkImageSubresourceRange) (ivt : Option VkImageViewType)
    (hc : st.committed = true) :
    set_storage_image st set binding img sub ivt = (.error .protocolViolation, st) := by
  unfold set_storage_image
  rw [hc]
  rfl

theorem set_storage_image_resolve_error (st : Impl) (set binding : Nat) (img : Image)
    (sub : Option VkImageSubresourceRange) (ivt : Option VkImageViewType) (msg : String)
    (hc : st.committed = false) (hres : resolve_view_type ivt img = .error msg) :
    set_storage_image st set binding img sub ivt = (.error (.runtimeError msg), st) := by
  unfold set_storage_image
  rw [hc, hres]
  rfl

theorem set_storage_image_oob (st : Impl) (set binding : Nat) (img : Image)
    (sub : Option VkImageSubresourceRange) (ivt : Option VkImageViewType)
    (vt : VkImageViewType)
    (hc : st.committed = false) (hres : resolve_view_type ivt img = .ok vt)
    (hg : get_or_create_set
        (createImageView st img.handle vt img.format
          (sub.getD img.whole_image_subresource_range)).2 set = none) :
    set_storage_image st set binding img sub ivt =
      (.error .outOfBounds,
        (createImageView st img.handle vt img.format
          (sub.getD img.whole_image_subresource_range)).2) := by
  unfold set_storage_image
  rw [hc, hres]
  simp only [Bool.false_eq_true, if_false, hg]

theorem set_combined_image_sampler_of_committed (st : Impl) (set binding : Nat)
    (img : Image) (sampler : Nat) (hc : st.committed = true) :
    set_combined_image_sampler st set binding img sampler
      = (.error .protocolViolation, st) := by
  unfold set_combined_image_sampler
  rw [hc]
  rfl

theorem set_combined_image_sampler_oob (st : Impl) (set binding : Nat) (img : Image)
    (sampler : Nat)
    (hc : st.committed = false)
    (hg : get_or_create_set
        (createImageView st img.handle .d2Array img.format
          { aspectMask := VK_IMAGE_ASPECT_COLOR_BIT, baseMipLevel := 0, levelCount := 1,
            baseArrayLayer := 0, layerCount := img.layerCount }).2 set = none) :
    set_combined_image_sampler st set binding img sampler =
      (.error .outOfBounds,
        (createImageView st img.handle .d2Array img.format
          { aspectMask := VK_IMAGE_ASPECT_COLOR_BIT, baseMipLevel := 0, levelCount := 1,
            baseArrayLayer := 0, layerCount := img.layerCount }).2) := by
  unfold set_combined_image_sampler
  rw [hc]
  simp only [Bool.false_eq_true, if_false, hg]

theorem set_uniform_buffer_oob (st : Impl) (set binding : Nat) (buf : Buffer)
    (off rng : Nat) (hg : get_or_create_set st set = none) :
    set_uniform_buffer st set binding buf off rng = (.error .outOfBounds, st) := by
  unfold set_uniform_buffer
  rw [hg]

/-! ### Per-call bookkeeping deltas -/

/-- One in-bounds attachment call keeps `#cleanup actions − #views created`
constant, only ever appends to the cleanup list, and does not resize the
table array. -/
theorem doAttach_delta (st : Impl) (c : AttachCall)
    (hset : c.setIndex < st.sets.length) :
    (doAttach st c).2.cleanup.length + st.viewsCreated.length
        = (doAttach st c).2.viewsCreated.length + st.cleanup.length ∧
    (∃ tail, (doAttach st c).2.cleanup = st.cleanup ++ tail) ∧
    (doAttach st c).2.sets.length = st.sets.length := by
  cases c with
  | storageImage s b img sub ivt =>
    simp only [AttachCall.setIndex] at hset
    simp only [doAttach]
    cases hb : st.committed with
    | true =>
      rw [set_storage_image_of_committed st s b img sub ivt hb]
      exact ⟨Nat.add_comm _ _, ⟨[], by simp⟩, rfl⟩
    | false =>
      cases hres : resolve_view_type ivt img with
      | error msg =>
        rw [set_storage_image_resolve_error st s b img sub ivt msg hb hres]
        exact ⟨Nat.add_comm _ _, ⟨[], by simp⟩, rfl⟩
      | ok vt =>
        have hset2 : s < (createImageView st img.handle vt img.format
            (sub.getD img.whole_image_subresource_range)).2.sets.length := hset
        obtain ⟨p, hp⟩ := Option.isSome_iff_exists.mp ((gocs_isSome_iff _ s).mpr hset2)
        rw [set_storage_image_eq st s b img sub ivt vt p hb hres hp]
        have hf := gocs_fields hp
        have hcl : p.2.cleanup = st.cleanup := hf.1
        have hvw : p.2.viewsCreated = st.viewsCreated ++
            [{ image := img.handle, viewType := vt, format := img.format,
               subresourceRange := sub.getD img.whole_image_subresource_range,
               viewHandle := st.nextView }] := hf.2.1
        have hlen : p.2.sets.length = st.sets.length := hf.2.2.2.2.2.2.2.2.1
        refine ⟨?_, ⟨[st.nextView], by rw [hcl]⟩, hlen⟩
        simp [hcl, hvw]
        try omega
  | combinedImageSampler s b img sampler =>
    simp only [AttachCall.setIndex] at hset
    simp only [doAttach]
    cases hb : st.committed with
    | true =>
      rw [set_combined_image_sampler_of_committed st s b img sampler hb]
      exact ⟨Nat.add_comm _ _, ⟨[], by simp⟩, rfl⟩
    | false =>
      have hset2 : s < (createImageView st img.handle .d2Array img.format
          { aspectMask := VK_IMAGE_ASPECT_COLOR_BIT, baseMipLevel := 0, levelCount := 1,
            baseArrayLayer := 0, layerCount := img.layerCount }).2.sets.length := hset
      obtain ⟨p, hp⟩ := Option.isSome_iff_exists.mp ((gocs_isSome_iff _ s).mpr hset2)
      rw [set_combined_image_sampler_eq st s b img sampler p hb hp]
      have hf := gocs_fields hp
      have hcl : p.2.cleanup = st.cleanup := hf.1
      have hvw : p.2.viewsCreated = st.viewsCreated ++
          [{ image := img.handle, viewType := VkImageViewType.d2Array, format := img.format,
             subresourceRange := { aspectMask := VK_IMAGE_ASPECT_COLOR_BIT, baseMipLevel := 0,
                                   levelCount := 1, baseArrayLayer := 0,
                                   layerCount := img.layerCount },
             viewHandle := st.nextView }] := hf.2.1
      have hlen : p.2.sets.length = st.sets.length := hf.2.2.2.2.2.2.2.2.1
      refine ⟨?_, ⟨[st.nextView], by rw [hcl]⟩, hlen⟩
      simp [hcl, hvw]
      try omega
  | uniformBuffer s b buf off rng =>
    simp only [AttachCall.setIndex] at hset
    simp only [doAttach]
    obtain ⟨p, hp⟩ := Option.isSome_iff_exists.mp ((gocs_isSome_iff st s).mpr hset)
    rw [set_uniform_buffer_eq st s b buf off rng p hp]
    have hf := gocs_fields hp
    refine ⟨?_, ⟨[], by simp [hf.1]⟩, hf.2.2.2.2.2.2.2.2.1⟩
    simp only [hf.1, hf.2.1]
    omega

/-- In-bounds attachment sequences keep `#cleanup actions − #views created`
constant and only append to the cleanup list. -/
theorem runAttach_delta (st : Impl) (cs : List AttachCall)
    (hb : ∀ c ∈ cs, c.setIndex < st.sets.length) :
    (runAttach st cs).cleanup.length + st.viewsCreated.length
        = (runAttach st cs).viewsCreated.length + st.cleanup.length ∧
    (∃ tail, (runAttach st cs).cleanup = st.cleanup ++ tail) ∧
    (runAttach st cs).sets.length = st.sets.length := by
  induction cs generalizing st with
  | nil =>
    have h : runAttach st [] = st := rfl
    rw [h]
    exact ⟨Nat.add_comm _ _, ⟨[], by simp⟩, rfl⟩
  | cons c cs ih =>
    have h1 := doAttach_delta st c (hb c (by simp))
    have hrw : runAttach st (c :: cs) = runAttach (doAttach st c).2 cs := by
      unfold runAttach
      rw [List.foldl_cons]
    have hb2 : ∀ d ∈ cs, d.setIndex < (doAttach st c).2.sets.length := by
      intro d hd
      rw [h1.2.2]
      exact hb d (by simp [hd])
    obtain ⟨e1, ⟨t1, ht1⟩, e3⟩ := ih (doAttach st c).2 hb2
    rw [hrw]
    obtain ⟨t0, ht0⟩ := h1.2.1
    refine ⟨by omega, ⟨t0 ++ t1, by rw [ht1, ht0, List.append_assoc]⟩, by rw [e3, h1.2.2]⟩

/-! ### C6: view creation and cleanup registration -/

/-- C6: an attachment call registers exactly one new transient view and one
release action if and only if its resource kind requires a view — both
image entry points create one view and queue one release action for it,
while the uniform-buffer entry point creates none and queues none; over any
in-bounds attachment sequence the number of queued release actions grows
exactly by the number of views created, and the queue is append-only (no
registered action is dropped or run before destruction). -/
theorem C6_view_registration (st : Impl) (hc : st.committed = false)
    (set binding : Nat) (hset : set < st.sets.length) :
    (∀ img sub ivt st1,
        set_storage_image st set binding img sub ivt = (.ok (), st1) →
        st1.cleanup = st.cleanup ++ [st.nextView] ∧
        st1.viewsCreated.length = st.viewsCreated.length + 1) ∧
    (∀ img sampler,
        (set_combined_image_sampler st set binding img sampler).2.cleanup
            = st.cleanup ++ [st.nextView] ∧
        (set_combined_image_sampler st set binding img sampler).2.viewsCreated.length
            = st.viewsCreated.length + 1) ∧
    (∀ buf off rng,
        (set_uniform_buffer st set binding buf off rng).2.cleanup = st.cleanup ∧
        (set_uniform_buffer st set binding buf off rng).2.viewsCreated
            = st.viewsCreated) ∧
    (∀ cs : List AttachCall, (∀ c ∈ cs, c.setIndex < st.sets.length) →
        (runAttach st cs).cleanup.length + st.viewsCreated.length
            = (runAttach st cs).viewsCreated.length + st.cleanup.length ∧
        ∃ tail, (runAttach st cs).cleanup = st.cleanup ++ tail) := by
  refine ⟨?_, ?_, ?_,
    fun cs hb => ⟨(runAttach_delta st cs hb).1, (runAttach_delta st cs hb).2.1⟩⟩
  · intro img sub ivt st1 h
    cases hres : resolve_view_type ivt img with
    | error msg =>
      rw [set_storage_image_resolve_error st set binding img sub ivt msg hc hres] at h
      simp at h
    | ok vt =>
      cases hg : get_or_create_set (createImageView st img.handle vt img.format
          (sub.getD img.whole_image_subresource_range)).2 set with
      | none =>
        rw [set_storage_image_oob st set binding img sub ivt vt hc hres hg] at h
        simp at h
      | some p =>
        rw [set_storage_image_eq st set binding img sub ivt vt p hc hres hg] at h
        have hf := gocs_fields hg
        have hcl : p.2.cleanup = st.cleanup := hf.1
        have hvw : p.2.viewsCreated = st.viewsCreated ++
            [{ image := img.handle, viewType := vt, format := img.format,
               subresourceRange := sub.getD img.whole_image_subresource_range,
               viewHandle := st.nextView }] := hf.2.1
        simp only [Prod.mk.injEq] at h
        obtain ⟨-, h2⟩ := h
        subst h2
        constructor
        · show p.2.cleanup ++ [st.nextView] = st.cleanup ++ [st.nextView]
          rw [hcl]
        · show p.2.viewsCreated.length = st.viewsCreated.length + 1
          rw [hvw]
          simp
  · intro img sampler
    have hset2 : set < (createImageView st img.handle .d2Array img.format
        { aspectMask := VK_IMAGE_ASPECT_COLOR_BIT, baseMipLevel := 0, levelCount := 1,
          baseArrayLayer := 0, layerCount := img.layerCount }).2.sets.length := hset
    obtain ⟨p, hp⟩ := Option.isSome_iff_exists.mp ((gocs_isSome_iff _ set).mpr hset2)
    have hf := gocs_fields hp
    have hcl : p.2.cleanup = st.cleanup := hf.1
    have hvw : p.2.viewsCreated = st.viewsCreated ++
        [{ image := img.handle, viewType := VkImageViewType.d2Array, format := img.format,
           subresourceRange := { aspectMask := VK_IMAGE_ASPECT_COLOR_BIT, baseMipLevel := 0,
                                 levelCount := 1, baseArrayLayer := 0,
                                 layerCount := img.layerCount },
           viewHandle := st.nextView }] := hf.2.1
    rw [set_combined_image_sampler_eq st set binding img sampler p hc hp]
    constructor
    · show p.2.cleanup ++ [st.nextView] = st.cleanup ++ [st.nextView]
      rw [hcl]
    · show p.2.viewsCreated.length = st.viewsCreated.length + 1
      rw [hvw]
      simp
  · intro buf off rng
    obtain ⟨p, hp⟩ := Option.isSome_iff_exists.mp ((gocs_isSome_iff st set).mpr hset)
    have hf := gocs_fields hp
    rw [set_uniform_buffer_eq st set binding buf off rng p hp]
    exact ⟨hf.1, hf.2.1⟩

/-- Witness for C6 on the fresh example helper. -/
theorem C6_witness :
    (set_storage_image exFresh 0 0 exImage none none).2.cleanup
        = exFresh.cleanup ++ [exFresh.nextView] ∧
    (set_combined_image_sampler exFresh 0 0 exImage 5).2.cleanup
        = exFresh.cleanup ++ [exFresh.nextView] ∧
    (set_uniform_buffer exFresh 0 0 exBuffer 0 16).2.cleanup = exFresh.cleanup ∧
    (runAttach exFresh [AttachCall.storageImage 0 0 exImage none none,
        AttachCall.uniformBuffer 1 0 exBuffer 0 16]).cleanup.length
          + exFresh.viewsCreated.length
      = (runAttach exFresh [AttachCall.storageImage 0 0 exImage none none,
          AttachCall.uniformBuffer 1 0 exBuffer 0 16]).viewsCreated.length
          + exFresh.cleanup.length := by
  have h := C6_view_registration exFresh rfl 0 0 (by decide)
  refine ⟨?_, (h.2.1 exImage 5).1, (h.2.2.1 exBuffer 0 16).1,
    (h.2.2.2 [AttachCall.storageImage 0 0 exImage none none,
      AttachCall.uniformBuffer 1 0 exBuffer 0 16] (by decide)).1⟩
  exact (h.1 exImage none none (set_storage_image exFresh 0 0 exImage none none).2 rfl).1

/-! ### The publishing loop -/

theorem mem_bindLoop {st : Impl} {b : BindCmd} :
    b ∈ bindLoop st ↔
      b.firstSet < st.nsets ∧ st.sets.getD b.firstSet 0 ≠ 0 ∧
      b.bind_point = st.bind_point ∧ b.layoutHandle = st.pipeline_layout ∧
      b.dset = st.sets.getD b.firstSet 0 := by
  unfold bindLoop
  rw [List.mem_filterMap]
  constructor
  · rintro ⟨a, ha, hfa⟩
    rw [List.mem_range] at ha
    by_cases hz : st.sets.getD a 0 ≠ 0
    · rw [if_pos hz, Option.some_inj] at hfa
      subst hfa
      exact ⟨ha, hz, rfl, rfl, rfl⟩
    · rw [if_neg hz] at hfa
      cases hfa
  · rintro ⟨h1, h2, h3, h4, h5⟩
    refine ⟨b.firstSet, List.mem_range.mpr h1, ?_⟩
    rw [if_pos h2, Option.some_inj]
    cases b
    simp_all

theorem bindLoop_map_firstSet (st : Impl) :
    (bindLoop st).map BindCmd.firstSet
      = (List.range st.nsets).filter (fun i => decide (st.sets.getD i 0 ≠ 0)) := by
  unfold bindLoop
  generalize List.range st.nsets = l
  induction l with
  | nil => rfl
  | cons a as ih =>
    rw [List.filterMap_cons, List.filter_cons]
    by_cases h : st.sets.getD a 0 ≠ 0
    · simp only [if_pos h, List.map_cons, ih, decide_eq_true h, if_true]
    · simp only [if_neg h, ih, decide_eq_false h]
      rfl

theorem bindLoop_nodup_firstSet (st : Impl) :
    ((bindLoop st).map BindCmd.firstSet).Nodup := by
  rw [bindLoop_map_firstSet]
  exact (List.nodup_range st.nsets).filter _

/-! ### C2: the one-shot commit -/

/-- C2: on a not-yet-committed helper, `commit` publishes exactly the
lazily allocated tables — one bind per allocated set index below the
helper's set count, carrying that set's stored handle, the helper's bind
point and pipeline layout — and marks the helper committed; a second
`commit` is rejected as a protocol violation and leaves the state alone. -/
theorem C2_commit_publishes_allocated_once (st : Impl) (hc : st.committed = false) :
    ∃ binds,
      commit st = (Except.ok binds, { st with committed := true }) ∧
      (∀ i, (i < st.nsets ∧ st.sets.getD i 0 ≠ 0) ↔ ∃ b ∈ binds, b.firstSet = i) ∧
      (binds.map BindCmd.firstSet).Nodup ∧
      (∀ b ∈ binds, b.dset = st.sets.getD b.firstSet 0 ∧
          b.bind_point = st.bind_point ∧ b.layoutHandle = st.pipeline_layout) ∧
      commit { st with committed := true }
          = (.error .protocolViolation, { st with committed := true }) := by
  refine ⟨bindLoop st, ?_, ?_, bindLoop_nodup_firstSet st, ?_, ?_⟩
  · unfold commit
    rw [hc]
    rfl
  · intro i
    constructor
    · rintro ⟨h1, h2⟩
      exact ⟨{ bind_point := st.bind_point, layoutHandle := st.pipeline_layout,
               firstSet := i, dset := st.sets.getD i 0 },
        mem_bindLoop.mpr ⟨h1, h2, rfl, rfl, rfl⟩, rfl⟩
    · rintro ⟨b, hb, rfl⟩
      have h := mem_bindLoop.mp hb
      exact ⟨h.1, h.2.1⟩
  · intro b hb
    have h := mem_bindLoop.mp hb
    exact ⟨h.2.2.2.2, h.2.2.1, h.2.2.2.1⟩
  · unfold commit
    simp

/-- A helper with one storage image attached to set 0, still uncommitted. -/
def exPopulated : Impl := (set_storage_image exFresh 0 0 exImage none none).2

/-- Witness for C2 on the populated example helper. -/
theorem C2_witness :
    ∃ binds,
      commit exPopulated = (Except.ok binds, { exPopulated with committed := true }) ∧
      (∀ i, (i < exPopulated.nsets ∧ exPopulated.sets.getD i 0 ≠ 0)
          ↔ ∃ b ∈ binds, b.firstSet = i) ∧
      (binds.map BindCmd.firstSet).Nodup ∧
      (∀ b ∈ binds, b.dset = exPopulated.sets.getD b.firstSet 0 ∧
          b.bind_point = exPopulated.bind_point ∧
          b.layoutHandle = exPopulated.pipeline_layout) ∧
      commit { exPopulated with committed := true }
          = (.error .protocolViolation, { exPopulated with committed := true }) :=
  C2_commit_publishes_allocated_once exPopulated rfl

/-! ### C3: the repeatable publish -/

/-- C3: `commit_frame` runs the same publishing loop as `commit` but
neither reads nor writes the committed flag — it leaves the state exactly
unchanged, its output is insensitive to the flag, a not-yet-committed
`commit` emits exactly `commit_frame`'s binds, and repeated calls (also
after `commit`) emit the same binds every time. -/
theorem C3_commit_frame_repeatable (st : Impl) :
    (commit_frame st).2 = st ∧
    (∀ b, (commit_frame { st with committed := b }).1 = (commit_frame st).1) ∧
    ((commit st).1 = if st.committed then Except.error Err.protocolViolation
        else Except.ok (commit_frame st).1) ∧
    (commit_frame (commit_frame st).2).1 = (commit_frame st).1 ∧
    (commit_frame (commit st).2).1 = (commit_frame st).1 := by
  refine ⟨rfl, fun b => rfl, ?_, rfl, ?_⟩
  · unfold commit
    cases hb : st.committed <;> simp [commit_frame]
  · unfold commit
    cases hb : st.committed <;> rfl

/-! ### C7: destruction order -/

/-- C7: the destructor's event trace destroys the pool before any queued
view-release action runs, and then runs exactly the registered release
actions, in registration order, each exactly once. -/
theorem C7_destruction_order (st : Impl) :
    (∃ pre post, destroyImpl st = pre ++ DtorEvent.destroyPool :: post ∧
        (∀ v, DtorEvent.destroyImageView v ∉ pre) ∧
        post = st.cleanup.map DtorEvent.destroyImageView) ∧
    (∀ v, (destroyImpl st).count (DtorEvent.destroyImageView v) = st.cleanup.count v) := by
  constructor
  · refine ⟨[DtorEvent.freeSets], st.cleanup.map DtorEvent.destroyImageView, rfl, ?_, rfl⟩
    intro v hv
    simp at hv
  · intro v
    unfold destroyImpl
    rw [List.count_append]
    have h1 : List.count (DtorEvent.destroyImageView v)
        [DtorEvent.freeSets, DtorEvent.destroyPool] = 0 := by
      simp [List.count_cons]
    have h2 : List.count (DtorEvent.destroyImageView v)
        (st.cleanup.map DtorEvent.destroyImageView) = st.cleanup.count v :=
      List.count_map_of_injective _ _ (fun a b h => by injection h) v
    rw [h1, h2]
    omega

end Imr
